import Mathlib

/-!
# Verification of the EMR web client core
Shallow embedding of the Credential Lifecycle Manager and Resilient Request
Pipeline (`src/unnamed/part_018` — the ApiClient — and the token-management
part of `src/src/lib/api/patient-api.ts`), with theorems settling the spec
claims about them.

Conventions of the embedding:
- JavaScript numbers used for delays are embedded as `ℚ` (no float rounding is
  relevant at these magnitudes); times in milliseconds as `Int`.
- `Math.random()` draws are passed in explicitly as a parameter `j ∈ [0,1)`.
- `Date` parsing (`new Date(s).getTime()`) is an environment facility, not
  repository code; it is passed in as a parameter `dateParse : String → Option Int`
  (`none` models an Invalid Date / NaN timestamp).
- Promise-based control flow is embedded as explicit state passing; the
  sequence of `fetch` outcomes a request observes is passed in as a trace.
-/

namespace EmrWeb

instance {ε α : Type} [DecidableEq ε] [DecidableEq α] : DecidableEq (Except ε α) :=
  fun x y =>
    match x, y with
    | .error e, .error f =>
      if h : e = f then isTrue (congrArg _ h)
      else isFalse (fun hh => h (Except.error.inj hh))
    | .ok a, .ok b =>
      if h : a = b then isTrue (congrArg _ h)
      else isFalse (fun hh => h (Except.ok.inj hh))
    | .error _, .ok _ => isFalse (fun hh => Except.noConfusion hh)
    | .ok _, .error _ => isFalse (fun hh => Except.noConfusion hh)

/-! ## Data model: ApiError (src/types, used throughout part_018) -/

/-- The `details` payload attached to an `ApiError`. In the source it is a
loosely-typed record; here the two shapes that actually occur are separated:
`server` is an opaque `details` object copied from a JSON error body
(identified by an id), `rateLimit` is the record built on 429 exhaustion. -/
inductive ErrDetails where
  | server (id : Nat)
  | rateLimit (retryAfterSeconds : Option Int) (endpoint method : String)
deriving DecidableEq, Repr

/-- `ApiError { code, message, statusCode?, details? }`. -/
structure ApiError where
  code : String
  message : String
  statusCode : Option Nat := none
  details : Option ErrDetails := none
deriving DecidableEq, Repr

/-! ## Rate limiting configuration (part_018 lines 17–22) -/

def RATE_LIMIT_CONFIG_maxRetries : Nat := 3
def RATE_LIMIT_CONFIG_baseDelayMs : ℚ := 1000
def RATE_LIMIT_CONFIG_maxDelayMs : ℚ := 30000
def RATE_LIMIT_CONFIG_jitterFactor : ℚ := 1/5

/-! ## calculateBackoffDelay (part_018 lines 115–127)

`Math.random()` is passed in as the draw `j`; the source computes
`jitter = j * jitterFactor * base` and `min (base + jitter) maxDelayMs`. -/

def calculateBackoffDelay (attempt : Nat) (retryAfterSeconds : Option ℚ) (j : ℚ) : ℚ :=
  match retryAfterSeconds with
  | some h =>
    if h > 0 then
      let jitter := j * RATE_LIMIT_CONFIG_jitterFactor * h * 1000
      min (h * 1000 + jitter) RATE_LIMIT_CONFIG_maxDelayMs
    else
      let exponentialDelay := RATE_LIMIT_CONFIG_baseDelayMs * 2 ^ attempt
      let jitter := j * RATE_LIMIT_CONFIG_jitterFactor * exponentialDelay
      min (exponentialDelay + jitter) RATE_LIMIT_CONFIG_maxDelayMs
  | none =>
    let exponentialDelay := RATE_LIMIT_CONFIG_baseDelayMs * 2 ^ attempt
    let jitter := j * RATE_LIMIT_CONFIG_jitterFactor * exponentialDelay
    min (exponentialDelay + jitter) RATE_LIMIT_CONFIG_maxDelayMs

/-! ## parseRetryAfter (part_018 lines 132–149)

`parseInt(s, 10)` is embedded faithfully: skip leading whitespace, an optional
sign, then the longest prefix of decimal digits; no digits means NaN (`none`).
`new Date(s)` is the abstract `dateParse` parameter; `Date.now()` is `now`. -/

def jsParseIntDigits (cs : List Char) : Option Nat :=
  match cs.takeWhile Char.isDigit with
  | [] => none
  | ds => some (ds.foldl (fun acc c => acc * 10 + (c.toNat - '0'.toNat)) 0)

/-- Sign handling of `parseInt`: an optional single leading `-`/`+`. -/
def jsParseIntCore (l : List Char) : Option Int :=
  match l with
  | [] => none
  | c :: rest =>
    if c = '-' then (jsParseIntDigits rest).map (fun n => -(n : Int))
    else if c = '+' then (jsParseIntDigits rest).map (fun n => (n : Int))
    else (jsParseIntDigits l).map (fun n => (n : Int))

def jsParseInt (s : String) : Option Int :=
  jsParseIntCore (s.toList.dropWhile Char.isWhitespace)

/-- `Math.ceil(delayMs / 1000)` for a positive `delayMs`. -/
def ceilDivMsToSec (delayMs : Int) : Int := (delayMs + 999) / 1000

def parseRetryAfter (dateParse : String → Option Int) (now : Int)
    (retryAfter : Option String) : Option Int :=
  match retryAfter with
  | none => none
  | some s =>
    -- `if (!retryAfter)`: the empty string is falsy in JS
    if s = "" then none
    else
      match jsParseInt s with
      | some seconds => some seconds
      | none =>
        match dateParse s with
        | some t =>
          let delayMs := t - now
          if delayMs > 0 then some (ceilDivMsToSec delayMs) else some 0
        | none => none

/-- The characters after an optional single leading sign. -/
def signBody (l : List Char) : List Char :=
  match l with
  | [] => []
  | c :: rest => if c = '-' then rest else if c = '+' then rest else l

/-- Spec-side predicate (for comparison with the source behaviour only): the
header value is exactly an integer number of seconds, i.e. an optional sign
followed by one or more decimal digits and nothing else. -/
def isIntegerSecondsValue (s : String) : Bool :=
  !(signBody s.toList).isEmpty && (signBody s.toList).all Char.isDigit

/-! ## getApiBaseUrl (part_018 lines 27–96)

`new URL(...)` is embedded for URLs of the shape `scheme://host[:port][/...]`,
which covers every configured base URL the validator is specified on; a string
not of that shape models the constructor throwing `TypeError`. The JS `URL`
lowercases `protocol` and `hostname`, keeps the colon on `protocol`, and keeps
brackets on an IPv6 hostname. -/

structure UrlParts where
  protocol : String
  hostname : String
deriving DecidableEq, Repr

/-- `String.startsWith`, via structural recursion so that concrete instances
reduce in the kernel. -/
def charsPrefix : List Char → List Char → Bool
  | [], _ => true
  | _ :: _, [] => false
  | c :: p, d :: s => c = d && charsPrefix p s

def strStartsWith (s p : String) : Bool := charsPrefix p.toList s.toList

def strEndsWith (s p : String) : Bool := charsPrefix p.toList.reverse s.toList.reverse

/-- Split a character list at the first occurrence of `"://"`. -/
def splitAtSchemeSep : List Char → Option (List Char × List Char)
  | [] => none
  | ':' :: '/' :: '/' :: rest => some ([], rest)
  | c :: rest => (splitAtSchemeSep rest).map (fun p => (c :: p.1, p.2))

def jsNewURL (s : String) : Option UrlParts :=
  match splitAtSchemeSep s.toList with
  | none => none
  | some (scheme, rest) =>
    if scheme.isEmpty ∨ rest.isEmpty then none
    else
      let hostport := rest.takeWhile (fun c => c ≠ '/' ∧ c ≠ '?' ∧ c ≠ '#')
      let hostname :=
        match hostport with
        | '[' :: tl => '[' :: (tl.takeWhile (· ≠ ']')) ++ [']']
        | l => l.takeWhile (· ≠ ':')
      if hostname.isEmpty then none
      else some ⟨String.mk ((scheme ++ [':']).map Char.toLower),
                 String.mk (hostname.map Char.toLower)⟩

/-- Distinct from `ApiError`: configuration failures are thrown as plain
`Error`s (part_018 lines 34, 54, 80, 89). -/
inductive ConfigError where
  | missingApiUrl
  | httpsRequired
  | privateHost
  | invalidUrlFormat
deriving DecidableEq, Repr

/-- Result of resolving the base URL: the URL plus whether a `console.warn`
was emitted during resolution. -/
structure ResolveResult where
  url : String
  warned : Bool
deriving DecidableEq, Repr

def localhostVariants : List String := ["localhost", "127.0.0.1", "::1", "[::1]", "0.0.0.0"]

/-- `/^(10\.|172\.(1[6-9]|2[0-9]|3[01])\.|192\.168\.)/.test(hostname)` -/
def isPrivateIPv4 (h : String) : Bool :=
  strStartsWith h "10." || strStartsWith h "192.168." ||
  (match h.toList with
   | '1' :: '7' :: '2' :: '.' :: c0 :: c1 :: '.' :: _ =>
     (c0 = '1' ∧ ('6' ≤ c1 ∧ c1 ≤ '9')) ∨
     (c0 = '2' ∧ c1.isDigit) ∨
     (c0 = '3' ∧ (c1 = '0' ∨ c1 = '1'))
   | _ => false)

/-- `/^(fc|fd|fe80:)/i.test(hostname)` -/
def isPrivateIPv6 (h : String) : Bool :=
  let l := String.mk (h.toList.map Char.toLower)
  strStartsWith l "fc" || strStartsWith l "fd" || strStartsWith l "fe80:"

def getApiBaseUrl (configuredUrl : Option String) (isProduction : Bool) :
    Except ConfigError ResolveResult :=
  -- `if (!configuredUrl)`: absent or the falsy empty string
  if configuredUrl = none ∨ configuredUrl = some "" then
    if isProduction then .error .missingApiUrl
    else .ok ⟨"http://localhost:5000", true⟩    -- development fallback, console.warn
  else
    match configuredUrl with
    | none => .error .missingApiUrl    -- unreachable given the guard above
    | some cu =>
      match jsNewURL cu with
      | none => .error .invalidUrlFormat    -- `new URL` threw TypeError
      | some url =>
        if isProduction ∧ url.protocol ≠ "https:" then .error .httpsRequired
        else
          let isLocalhost := localhostVariants.contains url.hostname ||
            strEndsWith url.hostname ".local" || strStartsWith url.hostname "127."
          let isPrivateIP := isPrivateIPv4 url.hostname || isPrivateIPv6 url.hostname
          if isProduction ∧ (isLocalhost || isPrivateIP) then .error .privateHost
          else .ok ⟨cu, false⟩

/-! ## Credential Lifecycle Manager (patient-api.ts lines 644–748)

The module-level mutable state (`isRefreshing`, `tokenRefreshPromise`,
`tokenRefreshTimeout`) is embedded as an explicit state record. A promise is
identified by a `Nat` id: two callers awaiting the same id observe the same
settled result. There is no `await` between the single-flight check at the
top of `getAccessToken` and the assignment of the mutex, so under the
single-threaded event-loop model each call is one atomic state transition. -/

structure AuthState where
  isRefreshing : Bool
  tokenRefreshPromise : Option Nat
  nextId : Nat
  /-- number of underlying token acquisitions started so far -/
  started : Nat
deriving DecidableEq, Repr

def AuthState.idle : AuthState :=
  { isRefreshing := false, tokenRefreshPromise := none, nextId := 0, started := 0 }

/-- One synchronous `getAccessToken()` entry. Returns the promise handle the
caller awaits (`.error` models the synchronous `throw new Error('No active
account found')`) together with the new state. -/
def getAccessTokenCall (hasAccount : Bool) (s : AuthState) :
    Except Unit Nat × AuthState :=
  if s.isRefreshing ∧ s.tokenRefreshPromise.isSome then
    -- a refresh is already in progress: join it
    (.ok (s.tokenRefreshPromise.getD 0), s)
  else if ¬ hasAccount then
    (.error (), s)
  else
    -- set the mutex, start one acquisition, publish the shared promise
    (.ok s.nextId,
      { isRefreshing := true, tokenRefreshPromise := some s.nextId,
        nextId := s.nextId + 1, started := s.started + 1 })

/-- The `finally` block of the refresh promise: runs when the acquisition
settles, with the same effect whether it succeeded or failed. -/
def settleRefresh (_succeeded : Bool) (s : AuthState) : AuthState :=
  { s with isRefreshing := false, tokenRefreshPromise := none }

/-- Iterate `n` `getAccessToken()` calls, collecting each caller's handle. -/
def getAccessTokenCalls (hasAccount : Bool) :
    Nat → AuthState → List (Except Unit Nat) × AuthState
  | 0, s => ([], s)
  | n + 1, s =>
    let (r, s₁) := getAccessTokenCall hasAccount s
    let (rs, s₂) := getAccessTokenCalls hasAccount n s₁
    (r :: rs, s₂)

/-! ## scheduleTokenRefresh (patient-api.ts lines 644–686) -/

def TOKEN_REFRESH_BUFFER_MS : Int := 5 * 60 * 1000

/-- The pending proactive-renewal timer: `some t` is a timer set to fire at
absolute time `t` (ms); `none` is no pending timer. -/
structure TimerState where
  pending : Option Int
deriving DecidableEq, Repr

def scheduleTokenRefresh (st : TimerState) (now : Int) (expiresOn : Option Int) :
    TimerState :=
  -- clear any existing timeout first
  let _ := st
  match expiresOn with
  | none => { pending := none }
  | some expiryTime =>
    let refreshTime := expiryTime - TOKEN_REFRESH_BUFFER_MS
    let timeUntilRefresh := refreshTime - now
    if timeUntilRefresh > 0 then { pending := some refreshTime }
    else { pending := none }

/-! ## Request Pipeline (part_018 lines 159–419)

The environment of one logical request: the deployment flag, the DOM sources
of the CSRF token, and the settled outcome of `getAccessToken()` (whose
rejection `buildHeaders` swallows). The outcomes of the successive `fetch`
calls the pipeline would observe are supplied as a trace, one entry per
network call issued. -/

/-- `document`: the `meta[name="csrf-token"]` element (present with its
`content` attribute, which may itself be null) and the `XSRF-TOKEN` cookie. -/
structure DomEnv where
  metaTag : Option (Option String)
  xsrfCookie : Option String
deriving DecidableEq, Repr

/-- `ApiClient.getCsrfToken` (lines 182–192): the meta tag wins when the
element exists, even when its `content` attribute is null. -/
def getCsrfToken (d : DomEnv) : Option String :=
  match d.metaTag with
  | some content => content
  | none => d.xsrfCookie

structure ClientEnv where
  isProduction : Bool
  dom : DomEnv
  /-- settled outcome of `getAccessToken()`: `none` models its rejection -/
  accessToken : Option String
deriving DecidableEq, Repr

/-- `ApiRequestConfig` fields the pipeline reads. -/
structure ApiRequestConfig where
  withAuth : Option Bool := none
  skipRateLimitRetry : Bool := false
  headers : List (String × String) := []
deriving DecidableEq, Repr

structure Headers where
  contentType : String
  extra : List (String × String)
  authorization : Option String
  csrfToken : Option String
deriving DecidableEq, Repr

/-- JS truthiness of a nullable string: `null`/absent and the empty string
are falsy. -/
def jsTruthyStr : Option String → Bool
  | none => false
  | some s => !(s = "")

/-- `ApiClient.buildHeaders` (lines 197–243). The `Bool` in the result is
whether a CSRF-missing `console.warn` was emitted (non-production path).
The token check is the JS truthiness test `if (csrfToken)`, so a
present-but-empty token counts as missing. -/
def buildHeaders (env : ClientEnv) (cfg : ApiRequestConfig) (method : String) :
    Except ApiError (Headers × Bool) :=
  let base : Headers :=
    { contentType := "application/json", extra := cfg.headers,
      authorization := none, csrfToken := none }
  -- `if (config?.withAuth !== false)`
  let h1 := if cfg.withAuth ≠ some false then
      match env.accessToken with
      | some tok => { base with authorization := some ("Bearer " ++ tok) }
      | none => base     -- token failure swallowed with a warning; continue
    else base
  if ["POST", "PUT", "PATCH", "DELETE"].contains method then
    let csrfToken := getCsrfToken env.dom
    -- `if (csrfToken)`
    if jsTruthyStr csrfToken then
      .ok ({ h1 with csrfToken := csrfToken }, false)
    else
      if env.isProduction then
        .error { code := "CSRF_TOKEN_MISSING",
                 message := "CSRF token is required for this operation. Please refresh the page and try again.",
                 statusCode := some 403 }
      else
        .ok (h1, true)   -- console.warn, request allowed in development
  else
    .ok (h1, false)

/-- The error-relevant fields of a decoded JSON object body. -/
structure ErrorBody where
  message : Option String := none
  code : Option String := none
  /-- opaque server-provided `details` record, identified by an id -/
  details : Option Nat := none
deriving DecidableEq, Repr

structure HttpResponse where
  status : Nat
  statusText : String := ""
  /-- the `Retry-After` response header -/
  retryAfter : Option String := none
  /-- content-type includes `application/json` -/
  isJson : Bool := false
  /-- when `isJson`: the decoded body viewed as a (non-null) object, if it is one -/
  jsonObj : Option ErrorBody := none
  /-- when `isJson`: `some id` models the body being malformed JSON, so that
  `await response.json()` rejects with a raw `SyntaxError` identified by `id` -/
  jsonParseError : Option Nat := none
deriving DecidableEq, Repr

/-- JS `a || b` on an optional string field: the empty string is falsy. -/
def jsOr (v : Option String) (d : String) : String :=
  match v with
  | some s => if s = "" then d else s
  | none => d

/-- A value thrown out of the pipeline: either a structured `ApiError` or a
raw (unwrapped) exception such as a transport `TypeError` or a body-decode
`SyntaxError`. -/
inductive Thrown where
  | api (e : ApiError)
  | raw (id : Nat)
deriving DecidableEq, Repr

def Thrown.isApi : Thrown → Bool
  | .api _ => true
  | .raw _ => false

/-- `(error as ApiError)?.code`: a raw exception has no `code` field. -/
def Thrown.jsCode : Thrown → Option String
  | .api e => some e.code
  | .raw _ => none

/-- `ApiClient.handleResponse` (lines 263–292); on success the decoded data
is represented by the response itself. The body is decoded *before* the
`response.ok` check, so a malformed JSON body makes `await response.json()`
reject with a raw `SyntaxError` regardless of the status. -/
def handleResponse (r : HttpResponse) : Except Thrown HttpResponse :=
  match r.isJson, r.jsonParseError with
  | true, some id => .error (.raw id)   -- `await response.json()` rejected
  | _, _ =>
    if 200 ≤ r.status ∧ r.status < 300 then .ok r
    else
      let base : ApiError :=
        { code := "HTTP_" ++ toString r.status, message := r.statusText,
          statusCode := some r.status }
      match r.isJson, r.jsonObj with
      | true, some o =>
        .error (.api { code := jsOr o.code base.code,
                       message := jsOr o.message base.message,
                       statusCode := some r.status,
                       details := o.details.map ErrDetails.server })
      | _, _ => .error (.api base)

/-- What one `fetch` call did. -/
inductive FetchOutcome where
  | resp (r : HttpResponse)
  /-- the request timeout fired: `fetch` rejected with an `AbortError` -/
  | abort
  /-- `fetch` rejected with a raw transport-level error (e.g. a `TypeError`),
  identified by an id -/
  | transport (id : Nat)
deriving DecidableEq, Repr

def FetchOutcome.isTransport : FetchOutcome → Bool
  | .transport _ => true
  | _ => false

/-- The response's body decodes without a `response.json()` rejection. -/
def HttpResponse.bodyDecodes (r : HttpResponse) : Bool :=
  !(r.isJson && r.jsonParseError.isSome)

/-- The outcome involves no `response.json()` rejection. -/
def FetchOutcome.bodyDecodes : FetchOutcome → Bool
  | .resp r => r.bodyDecodes
  | _ => true

def rateLimitedError (retryAfterSeconds : Option Int) (endpoint method : String) :
    ApiError :=
  { code := "RATE_LIMITED", message := "Too many requests. Please wait and try again.",
    statusCode := some 429,
    details := some (.rateLimit retryAfterSeconds endpoint method) }

def timeoutError : ApiError :=
  { code := "TIMEOUT", message := "Request timeout", statusCode := some 408 }

def unknownError : ApiError :=
  { code := "UNKNOWN", message := "Request failed", statusCode := some 500 }

/-- The retry loop of `ApiClient.request` (lines 310–383). `remaining` is
`maxRetries - attempt`, so `attempt < maxRetries` is `remaining > 0`. The
result pairs what the call settled to with the number of network calls
issued. An exhausted trace yields the line-382 defensive fallback with no
further calls. The `sleep` between attempts has no observable effect here. -/
def runAttempts (env : ClientEnv) (cfg : ApiRequestConfig) (method endpoint : String)
    (dateParse : String → Option Int) (now : Int) :
    Nat → List FetchOutcome → Except Thrown HttpResponse × Nat
  | _, [] => (.error (.api unknownError), 0)
  | remaining, o :: rest =>
    match buildHeaders env cfg method with
    | .error e => (.error (.api e), 0)   -- thrown before `fetch`: no network call
    | .ok _ =>
      match o with
      | .resp r =>
        if r.status = 429 then
          let retryAfter := parseRetryAfter dateParse now r.retryAfter
          if remaining > 0 then
            -- retries left: sleep for the backoff delay and continue
            let (res, n) :=
              runAttempts env cfg method endpoint dateParse now (remaining - 1) rest
            (res, n + 1)
          else
            (.error (.api (rateLimitedError retryAfter endpoint method)), 1)
        else
          match handleResponse r with
          | .ok v => (.ok v, 1)
          | .error t =>
            -- catch block: not an AbortError; retried iff
            -- `(error as ApiError)?.code === 'RATE_LIMITED'` and retries
            -- remain, otherwise `throw error` rethrows the value unchanged
            if t.jsCode = some "RATE_LIMITED" ∧ remaining > 0 then
              let (res, n) :=
                runAttempts env cfg method endpoint dateParse now (remaining - 1) rest
              (res, n + 1)
            else
              (.error t, 1)
      | .abort => (.error (.api timeoutError), 1)
      | .transport id =>
        -- catch block: not an AbortError, carries no RATE_LIMITED code:
        -- `throw error` rethrows the raw exception unchanged
        (.error (.raw id), 1)

def maxRetriesOf (cfg : ApiRequestConfig) : Nat :=
  if cfg.skipRateLimitRetry then 0 else RATE_LIMIT_CONFIG_maxRetries

/-- `ApiClient.request` (lines 298–383), with the URL already built; the
trace supplies the successive `fetch` outcomes. -/
def request (env : ClientEnv) (cfg : ApiRequestConfig) (method endpoint : String)
    (dateParse : String → Option Int) (now : Int) (trace : List FetchOutcome) :
    Except Thrown HttpResponse × Nat :=
  runAttempts env cfg method endpoint dateParse now (maxRetriesOf cfg) trace

/-! ## buildUrl (part_018 lines 248–258) -/

/-- A query-parameter value: `string | number | boolean`. -/
inductive JsPrim where
  | str (s : String)
  | num (n : Int)
  | bool (b : Bool)
deriving DecidableEq, Repr

/-- `String(value)` -/
def JsPrim.toJsString : JsPrim → String
  | .str s => s
  | .num n => toString n
  | .bool b => if b then "true" else "false"

/-- The constructed request URL: the string handed to `new URL` and the
search parameters appended to it, in order. -/
structure BuiltUrl where
  base : String
  query : List (String × String)
deriving DecidableEq, Repr

/-- `ApiClient.buildUrl`. `resolveBase` is the outcome `this.getBaseUrl()`
would have (lines 172–177, deferring to `getApiBaseUrlLazy`); the ternary
evaluates it only when the endpoint does not start with `"http"`. -/
def buildUrl (resolveBase : Except ConfigError ResolveResult) (endpoint : String)
    (params : Option (List (String × JsPrim))) : Except ConfigError BuiltUrl :=
  if strStartsWith endpoint "http" then
    .ok ⟨endpoint, (params.getD []).map (fun kv => (kv.1, kv.2.toJsString))⟩
  else
    match resolveBase with
    | .error e => .error e
    | .ok r => .ok ⟨r.url ++ endpoint, (params.getD []).map (fun kv => (kv.1, kv.2.toJsString))⟩

/-! ## Concrete fixtures used by several theorems -/

def devEnv : ClientEnv :=
  { isProduction := false, dom := ⟨none, none⟩, accessToken := none }

def prodEnvNoCsrf : ClientEnv :=
  { isProduction := true, dom := ⟨none, none⟩, accessToken := some "tok" }

def resp429 (ra : Option String) : HttpResponse := { status := 429, retryAfter := ra }

def respOk : HttpResponse := { status := 200 }

/-- An HTTP 400 response whose JSON body claims `code: "RATE_LIMITED"`. -/
def respSpoofedRateLimit : HttpResponse :=
  { status := 400, isJson := true, jsonObj := some { code := some "RATE_LIMITED" } }

/-- An HTTP 500 response declaring JSON whose body is malformed, so
`await response.json()` rejects with a raw `SyntaxError` (id 7). -/
def respMalformedJson : HttpResponse :=
  { status := 500, statusText := "Internal Server Error", isJson := true,
    jsonParseError := some 7 }

/-- Production environment whose CSRF meta tag is present but empty
(`content=""`): falsy in JS, so the token counts as missing. -/
def prodEnvEmptyCsrf : ClientEnv :=
  { isProduction := true, dom := ⟨some (some ""), none⟩, accessToken := some "tok" }

def csrfMissingError : ApiError :=
  { code := "CSRF_TOKEN_MISSING",
    message := "CSRF token is required for this operation. Please refresh the page and try again.",
    statusCode := some 403 }

/-! ## General-purpose lemmas -/

lemma takeWhile_eq_self {α : Type} (p : α → Bool) :
    ∀ (l : List α), (∀ a ∈ l, p a = true) → l.takeWhile p = l
  | [], _ => rfl
  | a :: l, h => by
    have ha := h a (List.mem_cons_self a l)
    simp only [List.takeWhile_cons, ha, if_true]
    exact congrArg (a :: ·) (takeWhile_eq_self p l (fun b hb => h b (List.mem_cons_of_mem a hb)))

lemma isDigit_not_whitespace (c : Char) (h : c.isDigit = true) : c.isWhitespace = false := by
  by_contra hw
  have hw' : c.isWhitespace = true := by
    cases hcw : c.isWhitespace
    · exact absurd hcw hw
    · rfl
  simp only [Char.isWhitespace] at hw'
  rcases Bool.or_eq_true_iff.mp hw' with h1 | h1
  · rcases Bool.or_eq_true_iff.mp h1 with h2 | h2
    · rcases Bool.or_eq_true_iff.mp h2 with h3 | h3
      · have : c = ' ' := by exact decide_eq_true_eq.mp h3
        subst this; exact absurd h (by decide)
      · have : c = '\t' := by exact decide_eq_true_eq.mp h3
        subst this; exact absurd h (by decide)
    · have : c = '\r' := by exact decide_eq_true_eq.mp h2
      subst this; exact absurd h (by decide)
  · have : c = '\n' := by exact decide_eq_true_eq.mp h1
    subst this; exact absurd h (by decide)

lemma isDigit_ne_minus (c : Char) (h : c.isDigit = true) : c ≠ '-' := by
  intro he; subst he; exact absurd h (by decide)

lemma isDigit_ne_plus (c : Char) (h : c.isDigit = true) : c ≠ '+' := by
  intro he; subst he; exact absurd h (by decide)

/-! ## Theorems settling the claims -/

/-- C4: for every attempt index `i` and jitter draw `j ∈ [0,1)`, with a
positive server hint `h` the delay is `min (h·1000 + j·0.2·h·1000) 30000`,
otherwise it is `min (1000·2^i + j·0.2·1000·2^i) 30000`; the result never
exceeds 30000 ms, and without a hint it is non-decreasing in `i` pointwise
in `j` — hence also in expectation over the uniform draw. -/
theorem calculateBackoffDelay_spec (i : Nat) (j h : ℚ)
    (hj0 : 0 ≤ j) (hj1 : j < 1) (hh : 0 < h) :
    calculateBackoffDelay i (some h) j = min (h * 1000 + j * (1/5) * (h * 1000)) 30000 ∧
    calculateBackoffDelay i none j = min (1000 * 2 ^ i + j * (1/5) * (1000 * 2 ^ i)) 30000 ∧
    (∀ h' : ℚ, calculateBackoffDelay i (some h') j ≤ 30000) ∧
    calculateBackoffDelay i none j ≤ 30000 ∧
    calculateBackoffDelay i none j ≤ calculateBackoffDelay (i + 1) none j := by
  have hexp : ∀ k : Nat, calculateBackoffDelay k none j =
      min (1000 * 2 ^ k + j * (1/5) * (1000 * 2 ^ k)) 30000 := by
    intro k
    simp only [calculateBackoffDelay, RATE_LIMIT_CONFIG_baseDelayMs,
      RATE_LIMIT_CONFIG_jitterFactor, RATE_LIMIT_CONFIG_maxDelayMs]
  refine ⟨?_, hexp i, ?_, ?_, ?_⟩
  · simp only [calculateBackoffDelay, RATE_LIMIT_CONFIG_jitterFactor,
      RATE_LIMIT_CONFIG_maxDelayMs, if_pos hh]
    ring_nf
  · intro h'
    simp only [calculateBackoffDelay, RATE_LIMIT_CONFIG_baseDelayMs,
      RATE_LIMIT_CONFIG_jitterFactor, RATE_LIMIT_CONFIG_maxDelayMs]
    split <;> exact min_le_right _ _
  · rw [hexp i]; exact min_le_right _ _
  · rw [hexp i, hexp (i + 1)]
    refine min_le_min ?_ le_rfl
    have hp : (0:ℚ) ≤ 1000 * 2 ^ i := by positivity
    have h2 : (1000:ℚ) * 2 ^ (i + 1) = 2 * (1000 * 2 ^ i) := by ring
    nlinarith [mul_nonneg hj0 hp]

/-- C4 witness: the theorem applied at `i = 2`, `j = 1/2`, `h = 5`. -/
theorem calculateBackoffDelay_spec_witness :
    calculateBackoffDelay 2 (some 5) (1/2) =
      min ((5:ℚ) * 1000 + (1/2) * (1/5) * (5 * 1000)) 30000 ∧
    calculateBackoffDelay 2 none (1/2) =
      min ((1000:ℚ) * 2 ^ 2 + (1/2) * (1/5) * (1000 * 2 ^ 2)) 30000 ∧
    (∀ h' : ℚ, calculateBackoffDelay 2 (some h') (1/2) ≤ 30000) ∧
    calculateBackoffDelay 2 none (1/2) ≤ 30000 ∧
    calculateBackoffDelay 2 none (1/2) ≤ calculateBackoffDelay 3 none (1/2) :=
  calculateBackoffDelay_spec 2 (1/2) 5 (by norm_num) (by norm_num) (by norm_num)

/-- C7 counterexample: resolving the configured base URL
`http://localhost:5000` in non-production mode succeeds but emits **no**
warning (`warned = false`), contrary to the claim that a warning is emitted;
the development warning exists only on the unconfigured-fallback path. -/
theorem getApiBaseUrl_localhost_dev_no_warning :
    getApiBaseUrl (some "http://localhost:5000") false =
      .ok ⟨"http://localhost:5000", false⟩ := by decide

/-- C7 amended: resolving a configured `http://localhost:5000` in production
mode throws a configuration error (a plain `Error` — the `ConfigError` type —
not an `ApiError`); in non-production mode the same value resolves
successfully with no warning. (The warning accompanies only the
unconfigured development fallback, shown in the last conjunct.) -/
theorem getApiBaseUrl_localhost_spec :
    getApiBaseUrl (some "http://localhost:5000") true = .error .httpsRequired ∧
    getApiBaseUrl (some "http://localhost:5000") false =
      .ok ⟨"http://localhost:5000", false⟩ ∧
    getApiBaseUrl none false = .ok ⟨"http://localhost:5000", true⟩ := by
  refine ⟨by decide, by decide, by decide⟩

/-- C8: after any `scheduleTokenRefresh` call, the pending-timer slot is
freshly overwritten (any previously pending timer was cancelled first, so at
most one timer is ever pending), a timer firing at `T − 5min` is pending
exactly when that instant is strictly after `now`, and no timer is pending
when the expiry is absent or `T − 5min` is not in the future. -/
theorem scheduleTokenRefresh_spec (st : TimerState) (now : Int) (eo : Option Int) :
    scheduleTokenRefresh st now eo = scheduleTokenRefresh ⟨none⟩ now eo ∧
    (scheduleTokenRefresh st now none).pending = none ∧
    ∀ T : Int, (scheduleTokenRefresh st now (some T)).pending =
      (if now < T - TOKEN_REFRESH_BUFFER_MS then some (T - TOKEN_REFRESH_BUFFER_MS)
       else none) := by
  refine ⟨?_, rfl, ?_⟩
  · cases eo <;> rfl
  · intro T
    simp only [scheduleTokenRefresh]
    by_cases hlt : now < T - TOKEN_REFRESH_BUFFER_MS
    · rw [if_pos (by omega : T - TOKEN_REFRESH_BUFFER_MS - now > 0), if_pos hlt]
    · rw [if_neg (by omega : ¬ T - TOKEN_REFRESH_BUFFER_MS - now > 0), if_neg hlt]

/-- C10: an endpoint starting with `"http"` is used as the absolute request
URL — the result is the endpoint itself with the query parameters
string-encoded and appended, regardless of the base-URL resolution outcome
(so production-mode base-URL validation is never invoked); any other
endpoint is resolved against the base URL by concatenation, propagating a
base-URL resolution failure. -/
theorem buildUrl_spec (rb rb' : Except ConfigError ResolveResult) (endpoint : String)
    (params : Option (List (String × JsPrim))) :
    (strStartsWith endpoint "http" = true →
      buildUrl rb endpoint params =
        .ok ⟨endpoint, (params.getD []).map (fun kv => (kv.1, kv.2.toJsString))⟩ ∧
      buildUrl rb endpoint params = buildUrl rb' endpoint params) ∧
    (strStartsWith endpoint "http" = false →
      (∀ e, rb = .error e → buildUrl rb endpoint params = .error e) ∧
      (∀ r, rb = .ok r → buildUrl rb endpoint params =
        .ok ⟨r.url ++ endpoint, (params.getD []).map (fun kv => (kv.1, kv.2.toJsString))⟩)) := by
  constructor
  · intro hs
    constructor
    · simp [buildUrl, hs]
    · simp [buildUrl, hs]
  · intro hs
    constructor
    · intro e he; subst he; simp [buildUrl, hs]
    · intro r hr; subst hr; simp [buildUrl, hs]

/-- Spec-side value of an integer-seconds header string. -/
def decimalValue (s : String) : Int :=
  (jsParseIntCore s.toList).getD 0

lemma jsParseIntDigits_all (l : List Char) (hne : l ≠ []) (hd : ∀ c ∈ l, c.isDigit = true) :
    jsParseIntDigits l = some (l.foldl (fun acc c => acc * 10 + (c.toNat - '0'.toNat)) 0) := by
  unfold jsParseIntDigits
  rw [takeWhile_eq_self _ l hd]
  cases l with
  | nil => exact absurd rfl hne
  | cons c tl => rfl

lemma jsParseIntCore_isSome (l : List Char) (hne : signBody l ≠ [])
    (hd : ∀ c ∈ signBody l, c.isDigit = true) : (jsParseIntCore l).isSome = true := by
  cases l with
  | nil => exact absurd rfl hne
  | cons c rest =>
    by_cases hc : c = '-'
    · subst hc
      simp only [signBody, if_pos rfl] at hne hd
      simp only [if_true] at hne hd
      simp only [jsParseIntCore, if_true]
      rw [jsParseIntDigits_all rest hne hd]
      rfl
    · by_cases hp : c = '+'
      · subst hp
        simp only [signBody, if_neg (by decide : ¬('+' : Char) = '-'), if_pos rfl] at hne hd
        simp only [if_true] at hne hd
        simp only [jsParseIntCore, if_true]
        rw [jsParseIntDigits_all rest hne hd]
        rfl
      · simp only [signBody, if_neg hc, if_neg hp] at hne hd
        simp only [jsParseIntCore]
        rw [if_neg hc, if_neg hp, jsParseIntDigits_all (c :: rest) hne hd]
        rfl

lemma jsParseInt_of_integerSeconds (s : String) (h : isIntegerSecondsValue s = true) :
    jsParseInt s = some (decimalValue s) := by
  unfold isIntegerSecondsValue at h
  obtain ⟨h1, h2⟩ := (Bool.and_eq_true _ _).mp h
  have hne : signBody s.toList ≠ [] := by
    intro he; rw [he] at h1; simp at h1
  have hd : ∀ c ∈ signBody s.toList, c.isDigit = true := List.all_eq_true.mp h2
  have hdw : s.toList.dropWhile Char.isWhitespace = s.toList := by
    cases hls : s.toList with
    | nil => rfl
    | cons c tl =>
      rw [List.dropWhile_cons, if_neg]
      rw [hls] at hne hd
      by_cases hc : c = '-'
      · subst hc; exact (by decide : ¬Char.isWhitespace '-' = true)
      · by_cases hp : c = '+'
        · subst hp; exact (by decide : ¬Char.isWhitespace '+' = true)
        · simp only [signBody, if_neg hc, if_neg hp] at hd
          have := isDigit_not_whitespace c (hd c (List.mem_cons_self c tl))
          simp [this]
  unfold jsParseInt decimalValue
  rw [hdw]
  obtain ⟨v, hv⟩ := Option.isSome_iff_exists.mp (jsParseIntCore_isSome s.toList hne hd)
  rw [hv]
  rfl

/-- C5 counterexample: `"5x"` is neither an integer number of seconds nor a
valid HTTP date (with a date parser rejecting it, as any real one does), yet
`parseRetryAfter` returns `5` — JS `parseInt` accepts a garbage-suffixed
integer prefix — instead of treating the value as absent. -/
theorem parseRetryAfter_garbage_suffix_not_absent :
    isIntegerSecondsValue "5x" = false ∧
    parseRetryAfter (fun _ => none) 0 (some "5x") = some 5 := by
  refine ⟨by decide, by decide⟩

/-- C5 amended: `parseRetryAfter` returns the value's integer-prefix parse
(per JS `parseInt`) whenever one exists — in particular the exact integer for
a pure integer-seconds value; for a value with no integer prefix that parses
as a date it returns the ceiling of the seconds from `now` until the date
when the date is in the future and `0` otherwise; it returns absent only for
a null/empty header or a value that neither has an integer prefix nor parses
as a date. -/
theorem parseRetryAfter_amended (d : String → Option Int) (now : Int) (s : String)
    (hs : s ≠ "") :
    parseRetryAfter d now none = none ∧
    parseRetryAfter d now (some "") = none ∧
    (isIntegerSecondsValue s = true →
      parseRetryAfter d now (some s) = some (decimalValue s)) ∧
    (∀ n, jsParseInt s = some n → parseRetryAfter d now (some s) = some n) ∧
    (jsParseInt s = none → ∀ t, d s = some t → now < t →
      parseRetryAfter d now (some s) = some (ceilDivMsToSec (t - now))) ∧
    (jsParseInt s = none → ∀ t, d s = some t → t ≤ now →
      parseRetryAfter d now (some s) = some 0) ∧
    (jsParseInt s = none → d s = none → parseRetryAfter d now (some s) = none) := by
  refine ⟨rfl, rfl, ?_, ?_, ?_, ?_, ?_⟩
  · intro hint
    have hj := jsParseInt_of_integerSeconds s hint
    simp [parseRetryAfter, hs, hj]
  · intro n hj
    simp [parseRetryAfter, hs, hj]
  · intro hj t ht hlt
    have hpos : t - now > 0 := by omega
    simp [parseRetryAfter, hs, hj, ht, hpos]
  · intro hj t ht hle
    have hneg : ¬ t - now > 0 := by omega
    simp [parseRetryAfter, hs, hj, ht, hneg]
  · intro hj hd
    simp [parseRetryAfter, hs, hj, hd]

/-- C5 witness: the amended theorem applied at `"120"` with a rejecting date
parser. -/
theorem parseRetryAfter_amended_witness :
    parseRetryAfter (fun _ => none) 0 none = none ∧
    parseRetryAfter (fun _ => none) 0 (some "") = none ∧
    (isIntegerSecondsValue "120" = true →
      parseRetryAfter (fun _ => none) 0 (some "120") = some (decimalValue "120")) ∧
    (∀ n, jsParseInt "120" = some n →
      parseRetryAfter (fun _ => none) 0 (some "120") = some n) ∧
    (jsParseInt "120" = none → ∀ t, (fun (_ : String) => (none : Option Int)) "120" = some t →
      (0:Int) < t →
      parseRetryAfter (fun _ => none) 0 (some "120") = some (ceilDivMsToSec (t - 0))) ∧
    (jsParseInt "120" = none → ∀ t, (fun (_ : String) => (none : Option Int)) "120" = some t →
      t ≤ (0:Int) →
      parseRetryAfter (fun _ => none) 0 (some "120") = some 0) ∧
    (jsParseInt "120" = none → (fun (_ : String) => (none : Option Int)) "120" = none →
      parseRetryAfter (fun _ => none) 0 (some "120") = none) :=
  parseRetryAfter_amended (fun _ => none) 0 "120" (by decide)

lemma handleResponse_not_raw (r : HttpResponse) (hbd : r.bodyDecodes = true) (id : Nat) :
    handleResponse r ≠ .error (.raw id) := by
  intro hcontra
  unfold HttpResponse.bodyDecodes at hbd
  cases hij : r.isJson with
  | true =>
    cases hpe : r.jsonParseError with
    | some id' => rw [hij, hpe] at hbd; simp at hbd
    | none =>
      cases hjo : r.jsonObj with
      | some o =>
        simp only [handleResponse, hij, hpe, hjo] at hcontra
        split at hcontra <;> simp_all
      | none =>
        simp only [handleResponse, hij, hpe, hjo] at hcontra
        split at hcontra <;> simp_all
  | false =>
    cases hpe : r.jsonParseError with
    | some id' =>
      cases hjo : r.jsonObj with
      | some o =>
        simp only [handleResponse, hij, hpe, hjo] at hcontra
        split at hcontra <;> simp_all
      | none =>
        simp only [handleResponse, hij, hpe, hjo] at hcontra
        split at hcontra <;> simp_all
    | none =>
      cases hjo : r.jsonObj with
      | some o =>
        simp only [handleResponse, hij, hpe, hjo] at hcontra
        split at hcontra <;> simp_all
      | none =>
        simp only [handleResponse, hij, hpe, hjo] at hcontra
        split at hcontra <;> simp_all

lemma runAttempts_api_of_no_transport (env : ClientEnv) (cfg : ApiRequestConfig)
    (method endpoint : String) (d : String → Option Int) (now : Int) :
    ∀ (tr : List FetchOutcome) (m : Nat) (e : Thrown),
      (∀ o ∈ tr, o.isTransport = false) →
      (∀ o ∈ tr, o.bodyDecodes = true) →
      (runAttempts env cfg method endpoint d now m tr).1 = .error e →
      e.isApi = true := by
  intro tr
  induction tr with
  | nil =>
    intro m e _ _ he
    simp only [runAttempts] at he
    rw [← Except.error.inj he]
    rfl
  | cons o rest ih =>
    intro m e hno hbd he
    cases hbh : buildHeaders env cfg method with
    | error eb =>
      simp only [runAttempts, hbh] at he
      rw [← Except.error.inj he]
      rfl
    | ok hp =>
      cases o with
      | transport id =>
        have := hno _ (List.mem_cons_self _ _)
        simp [FetchOutcome.isTransport] at this
      | abort =>
        simp only [runAttempts, hbh] at he
        rw [← Except.error.inj he]
        rfl
      | resp r =>
        have hrest : ∀ o ∈ rest, o.isTransport = false :=
          fun o ho => hno o (List.mem_cons_of_mem _ ho)
        have hbrest : ∀ o ∈ rest, o.bodyDecodes = true :=
          fun o ho => hbd o (List.mem_cons_of_mem _ ho)
        by_cases h429 : r.status = 429
        · cases m with
          | zero =>
            simp [runAttempts, hbh, h429] at he
            rw [← he]
            rfl
          | succ m' =>
            rcases hE : runAttempts env cfg method endpoint d now m' rest with ⟨res, n⟩
            simp [runAttempts, hbh, h429, hE] at he
            exact ih m' e hrest hbrest (by rw [hE]; exact he)
        · cases hhr : handleResponse r with
          | ok v => simp [runAttempts, hbh, h429, hhr] at he
          | error t =>
            cases t with
            | raw id =>
              have hbdr : r.bodyDecodes = true := hbd _ (List.mem_cons_self _ _)
              exact absurd hhr (handleResponse_not_raw r hbdr id)
            | api er =>
              by_cases hrl : er.code = "RATE_LIMITED"
              · cases m with
                | zero =>
                  simp [runAttempts, hbh, h429, hhr, Thrown.jsCode, hrl] at he
                  rw [← he]
                  rfl
                | succ m' =>
                  rcases hE : runAttempts env cfg method endpoint d now m' rest
                    with ⟨res, n⟩
                  simp [runAttempts, hbh, h429, hhr, Thrown.jsCode, hrl, hE] at he
                  exact ih m' e hrest hbrest (by rw [hE]; exact he)
              · simp [runAttempts, hbh, h429, hhr, Thrown.jsCode, hrl] at he
                rw [← he]
                rfl

/-- C1 counterexample: two raw escapes. A transport-level `fetch` rejection
(not an abort, not an HTTP response) is rethrown unchanged by the pipeline's
catch block; and an HTTP 500 error response whose JSON body is malformed
makes `await response.json()` reject with a raw `SyntaxError` that the same
catch rethrows unchanged. In both cases the caller receives the raw
exception, not an `ApiError`. -/
theorem request_transport_error_escapes_raw :
    (request devEnv {} "GET" "/x" (fun _ => none) 0 [.transport 0] =
       (.error (.raw 0), 1) ∧
     request devEnv {} "GET" "/x" (fun _ => none) 0 [.resp respMalformedJson] =
       (.error (.raw 7), 1)) ∧
    (Thrown.raw 0).isApi = false ∧ (Thrown.raw 7).isApi = false := by
  refine ⟨⟨by decide, by decide⟩, rfl, rfl⟩

/-- C1 amended: for every request whose `fetch` outcomes are HTTP responses
with well-formed (decodable) bodies or aborts (timeouts), every value the
pipeline throws is an `ApiError`; by contrast a raw transport-level
rejection, or the raw `SyntaxError` from a malformed JSON body, escapes to
the caller unchanged. -/
theorem request_api_error_unless_transport (env : ClientEnv) (cfg : ApiRequestConfig)
    (method endpoint : String) (d : String → Option Int) (now : Int)
    (trace : List FetchOutcome)
    (htr : ∀ o ∈ trace, o.isTransport = false)
    (hbd : ∀ o ∈ trace, o.bodyDecodes = true) (e : Thrown)
    (he : (request env cfg method endpoint d now trace).1 = .error e) :
    e.isApi = true :=
  runAttempts_api_of_no_transport env cfg method endpoint d now trace
    (maxRetriesOf cfg) e htr hbd he

/-- C1 witness: the amended theorem applied to a timed-out request. -/
theorem request_api_error_unless_transport_witness :
    (Thrown.api timeoutError).isApi = true :=
  request_api_error_unless_transport devEnv {} "GET" "/x" (fun _ => none) 0
    [.abort] (by decide) (by decide) (.api timeoutError) (by decide)

/-- One step of the retry loop on a 429 response with retries remaining. -/
lemma runAttempts_step_429 (env : ClientEnv) (cfg : ApiRequestConfig)
    (method endpoint : String) (d : String → Option Int) (now : Int)
    (hp : Headers × Bool) (hbh : buildHeaders env cfg method = .ok hp)
    (r : HttpResponse) (hr : r.status = 429) (m : Nat) (tl : List FetchOutcome) :
    runAttempts env cfg method endpoint d now (m + 1) (.resp r :: tl) =
      ((runAttempts env cfg method endpoint d now m tl).1,
       (runAttempts env cfg method endpoint d now m tl).2 + 1) := by
  rcases hE : runAttempts env cfg method endpoint d now m tl with ⟨res, n⟩
  simp [runAttempts, hbh, hr, hE]

lemma runAttempts_all_429 (env : ClientEnv) (cfg : ApiRequestConfig)
    (method endpoint : String) (d : String → Option Int) (now : Int)
    (hp : Headers × Bool) (hbh : buildHeaders env cfg method = .ok hp) :
    ∀ (rs : List HttpResponse) (m : Nat) (rest : List FetchOutcome) (last : HttpResponse),
      rs.length = m + 1 → (∀ r ∈ rs, r.status = 429) → rs.getLast? = some last →
      runAttempts env cfg method endpoint d now m (rs.map FetchOutcome.resp ++ rest) =
        (.error (.api (rateLimitedError (parseRetryAfter d now last.retryAfter)
          endpoint method)), m + 1) := by
  intro rs
  induction rs with
  | nil => intro m rest last hlen; simp at hlen
  | cons r rs' ih =>
    intro m rest last hlen hall hlast
    have hr : r.status = 429 := hall r (List.mem_cons_self _ _)
    cases rs' with
    | nil =>
      have hm : m = 0 := by simpa using hlen
      subst hm
      have hl : last = r := by simpa using hlast.symm
      subst hl
      simp [runAttempts, hbh, hr]
    | cons r2 rs'' =>
      have hm : m = rs''.length + 1 := by
        simp only [List.length_cons] at hlen
        omega
      subst hm
      have hlast' : (r2 :: rs'').getLast? = some last := by
        rw [List.getLast?_cons_cons] at hlast
        exact hlast
      have hrec := ih (rs''.length) rest last (by simp)
        (fun x hx => hall x (List.mem_cons_of_mem _ hx)) hlast'
      rw [List.map_cons, List.cons_append,
        runAttempts_step_429 env cfg method endpoint d now hp hbh r hr rs''.length
          (List.map FetchOutcome.resp (r2 :: rs'') ++ rest),
        hrec]

/-- C3: for a request every one of whose attempts receives HTTP 429, the
pipeline issues exactly `maxRetries + 1` network calls (no further calls
afterwards, whatever else the network would have answered), and rejects with
an `ApiError` of code `RATE_LIMITED`, statusCode 429, whose
`details.retryAfterSeconds` is the parsed `Retry-After` hint of the last 429
response; `maxRetries` is 3 by default and 0 under `skipRateLimitRetry`. -/
theorem request_429_exhaustion (env : ClientEnv) (cfg : ApiRequestConfig)
    (method endpoint : String) (d : String → Option Int) (now : Int)
    (hp : Headers × Bool) (rs : List HttpResponse) (rest : List FetchOutcome)
    (last : HttpResponse)
    (hbh : buildHeaders env cfg method = .ok hp)
    (hlen : rs.length = maxRetriesOf cfg + 1)
    (hall : ∀ r ∈ rs, r.status = 429)
    (hlast : rs.getLast? = some last) :
    request env cfg method endpoint d now (rs.map FetchOutcome.resp ++ rest) =
      (.error (.api (rateLimitedError (parseRetryAfter d now last.retryAfter)
        endpoint method)), maxRetriesOf cfg + 1) ∧
    maxRetriesOf cfg = (if cfg.skipRateLimitRetry then 0 else 3) :=
  ⟨runAttempts_all_429 env cfg method endpoint d now hp hbh rs (maxRetriesOf cfg)
    rest last hlen hall hlast, rfl⟩

/-- C3 witness: four consecutive 429s under the default config reject with
`RATE_LIMITED` carrying the last hint after exactly 4 network calls. -/
theorem request_429_exhaustion_witness :
    request devEnv {} "GET" "/x" (fun _ => none) 0
      ([resp429 (some "1"), resp429 none, resp429 none,
        resp429 (some "7")].map FetchOutcome.resp ++ [.resp respOk]) =
      (.error (.api (rateLimitedError
        (parseRetryAfter (fun _ => none) 0 (resp429 (some "7")).retryAfter)
        "/x" "GET")), maxRetriesOf {} + 1) ∧
    maxRetriesOf {} =
      (if ApiRequestConfig.skipRateLimitRetry {} then 0 else 3) :=
  request_429_exhaustion devEnv {} "GET" "/x" (fun _ => none) 0
    ({ contentType := "application/json", extra := [], authorization := none,
       csrfToken := none }, false)
    [resp429 (some "1"), resp429 none, resp429 none, resp429 (some "7")]
    [.resp respOk] (resp429 (some "7")) (by decide) (by decide) (by decide) (by decide)

/-- C6: a state-changing request with no CSRF token available — none from the
meta tag or cookie, or only an empty one, which the source's JS truthiness
check `if (csrfToken)` also treats as missing — rejects in production mode
with `CSRF_TOKEN_MISSING` (statusCode 403) before any network call (0 fetches
consumed); in non-production mode the headers build successfully with a
warning and without the `X-CSRF-Token` header, and the request goes on to
issue at least one network call. -/
theorem request_csrf_enforcement (env : ClientEnv) (cfg : ApiRequestConfig)
    (method endpoint : String) (d : String → Option Int) (now : Int)
    (o : FetchOutcome) (rest : List FetchOutcome)
    (hm : ["POST", "PUT", "PATCH", "DELETE"].contains method = true)
    (hcsrf : jsTruthyStr (getCsrfToken env.dom) = false) :
    (env.isProduction = true →
      request env cfg method endpoint d now (o :: rest) =
        (.error (.api csrfMissingError), 0)) ∧
    (env.isProduction = false →
      (∃ h : Headers, buildHeaders env cfg method = .ok (h, true) ∧ h.csrfToken = none) ∧
      1 ≤ (request env cfg method endpoint d now (o :: rest)).2) := by
  constructor
  · intro hprod
    have hbh : buildHeaders env cfg method = .error csrfMissingError := by
      simp only [buildHeaders, hm, hcsrf, hprod, if_true, csrfMissingError]
      rfl
    simp [request, runAttempts, hbh]
  · intro hprod
    have hbh : ∃ h : Headers, buildHeaders env cfg method = .ok (h, true) ∧
        h.csrfToken = none := by
      by_cases hw : cfg.withAuth = some false
      · refine ⟨{ contentType := "application/json", extra := cfg.headers,
                  authorization := none, csrfToken := none }, ?_, rfl⟩
        simp only [buildHeaders, hm, hcsrf, hprod, hw, if_true, ne_eq,
          not_true_eq_false, if_false, Bool.false_eq_true]
      · cases hat : env.accessToken with
        | none =>
          refine ⟨{ contentType := "application/json", extra := cfg.headers,
                    authorization := none, csrfToken := none }, ?_, rfl⟩
          simp only [buildHeaders, hm, hcsrf, hprod, hat, if_true, ne_eq, hw,
            not_false_eq_true, if_true, Bool.false_eq_true, if_false]
        | some tok =>
          refine ⟨{ contentType := "application/json", extra := cfg.headers,
                    authorization := some ("Bearer " ++ tok), csrfToken := none }, ?_, rfl⟩
          simp only [buildHeaders, hm, hcsrf, hprod, hat, if_true, ne_eq, hw,
            not_false_eq_true, if_true, Bool.false_eq_true, if_false]
    obtain ⟨h, hbh', hcs⟩ := hbh
    refine ⟨⟨h, hbh', hcs⟩, ?_⟩
    show 1 ≤ (runAttempts env cfg method endpoint d now (maxRetriesOf cfg) (o :: rest)).2
    cases o with
    | transport id => simp [runAttempts, hbh']
    | abort => simp [runAttempts, hbh']
    | resp r =>
      by_cases h429 : r.status = 429
      · cases hM : maxRetriesOf cfg with
        | zero => simp [runAttempts, hbh', h429]
        | succ m' =>
          rcases hE : runAttempts env cfg method endpoint d now m' rest with ⟨res, n⟩
          simp [runAttempts, hbh', h429, hE]
      · cases hhr : handleResponse r with
        | ok v => simp [runAttempts, hbh', h429, hhr]
        | error t =>
          by_cases hrl : t.jsCode = some "RATE_LIMITED"
          · cases hM : maxRetriesOf cfg with
            | zero => simp [runAttempts, hbh', h429, hhr, hrl]
            | succ m' =>
              rcases hE : runAttempts env cfg method endpoint d now m' rest with ⟨res, n⟩
              simp [runAttempts, hbh', h429, hhr, hrl, hE]
          · simp [runAttempts, hbh', h429, hhr, hrl]

/-- C6 witness: a POST whose CSRF meta tag is present but empty — falsy in
JS, hence no token available — rejects in production with 0 network calls;
the non-production conjunct is vacuous for this environment. -/
theorem request_csrf_enforcement_witness :
    (prodEnvEmptyCsrf.isProduction = true →
      request prodEnvEmptyCsrf {} "POST" "/x" (fun _ => none) 0 [.resp respOk] =
        (.error (.api csrfMissingError), 0)) ∧
    (prodEnvEmptyCsrf.isProduction = false →
      (∃ h : Headers, buildHeaders prodEnvEmptyCsrf {} "POST" = .ok (h, true) ∧
        h.csrfToken = none) ∧
      1 ≤ (request prodEnvEmptyCsrf {} "POST" "/x" (fun _ => none) 0 [.resp respOk]).2) :=
  request_csrf_enforcement prodEnvEmptyCsrf {} "POST" "/x" (fun _ => none) 0
    (.resp respOk) [] (by decide) (by decide)

/-- C9 (exhibit of the divergence): `respSpoofedRateLimit` is an HTTP 400
response — a non-429 failure — whose JSON body spoofs `code: "RATE_LIMITED"`;
`handleResponse` copies that code into the thrown `ApiError`, and the retry
loop's catch then issues a second network call (here reaching the follow-up
200 response) instead of surfacing the HTTP 400 error immediately with no
further network calls. -/
theorem request_non429_spoofed_code_retries :
    respSpoofedRateLimit.status = 400 ∧
    handleResponse respSpoofedRateLimit =
      .error (.api { code := "RATE_LIMITED", message := "", statusCode := some 400 }) ∧
    request devEnv {} "GET" "/x" (fun _ => none) 0
      [.resp respSpoofedRateLimit, .resp respOk] = (.ok respOk, 2) := by
  refine ⟨rfl, by decide, by decide⟩

lemma getAccessTokenCall_inflight (p : Nat) (s : AuthState) (hr : s.isRefreshing = true)
    (hp : s.tokenRefreshPromise = some p) (ha : Bool) :
    getAccessTokenCall ha s = (.ok p, s) := by
  simp [getAccessTokenCall, hr, hp]

lemma getAccessTokenCalls_inflight (ha : Bool) (p : Nat) :
    ∀ (n : Nat) (s : AuthState), s.isRefreshing = true → s.tokenRefreshPromise = some p →
      getAccessTokenCalls ha n s = (List.replicate n (.ok p), s) := by
  intro n
  induction n with
  | zero => intro s _ _; rfl
  | succ n' ih =>
    intro s h1 h2
    simp [getAccessTokenCalls, getAccessTokenCall_inflight p s h1 h2 ha,
      ih s h1 h2, List.replicate_succ]

/-- C2: when `N ≥ 1` `getAccessToken()` calls arrive while no refresh is in
progress (and an account is active), exactly one underlying acquisition is
started (`started` rises by exactly one), every one of the `N` callers
receives the same shared promise handle, and settling the operation —
success or failure alike — clears the in-progress flag and the shared
handle. -/
theorem getAccessToken_single_flight (s : AuthState) (N : Nat) (hN : 1 ≤ N)
    (hidle : s.isRefreshing = false) :
    (getAccessTokenCalls true N s).2.started = s.started + 1 ∧
    (∀ r ∈ (getAccessTokenCalls true N s).1, r = .ok s.nextId) ∧
    (getAccessTokenCalls true N s).1.length = N ∧
    ∀ b : Bool,
      (settleRefresh b (getAccessTokenCalls true N s).2).isRefreshing = false ∧
      (settleRefresh b (getAccessTokenCalls true N s).2).tokenRefreshPromise = none := by
  obtain ⟨n, rfl⟩ : ∃ n, N = n + 1 := ⟨N - 1, by omega⟩
  have hcall : getAccessTokenCall true s =
      (.ok s.nextId,
       { isRefreshing := true, tokenRefreshPromise := some s.nextId,
         nextId := s.nextId + 1, started := s.started + 1 }) := by
    simp [getAccessTokenCall, hidle]
  have hrest := getAccessTokenCalls_inflight true s.nextId n
    { isRefreshing := true, tokenRefreshPromise := some s.nextId,
      nextId := s.nextId + 1, started := s.started + 1 } rfl rfl
  have hcalls : getAccessTokenCalls true (n + 1) s =
      (Except.ok s.nextId :: List.replicate n (.ok s.nextId),
       { isRefreshing := true, tokenRefreshPromise := some s.nextId,
         nextId := s.nextId + 1, started := s.started + 1 }) := by
    simp [getAccessTokenCalls, hcall, hrest]
  rw [hcalls]
  refine ⟨rfl, ?_, by simp, fun b => ⟨rfl, rfl⟩⟩
  intro r hr
  rcases List.mem_cons.mp hr with h | h
  · exact h
  · exact List.eq_of_mem_replicate h

/-- C2 witness: three concurrent callers from the idle state. -/
theorem getAccessToken_single_flight_witness :
    (getAccessTokenCalls true 3 AuthState.idle).2.started = AuthState.idle.started + 1 ∧
    (∀ r ∈ (getAccessTokenCalls true 3 AuthState.idle).1,
      r = .ok AuthState.idle.nextId) ∧
    (getAccessTokenCalls true 3 AuthState.idle).1.length = 3 ∧
    ∀ b : Bool,
      (settleRefresh b (getAccessTokenCalls true 3 AuthState.idle).2).isRefreshing
        = false ∧
      (settleRefresh b (getAccessTokenCalls true 3 AuthState.idle).2).tokenRefreshPromise
        = none :=
  getAccessToken_single_flight AuthState.idle 3 (by decide) rfl

/-- C10 witness: an absolute endpoint with a failed base-URL resolution
still builds successfully. -/
theorem buildUrl_spec_witness :
    buildUrl (.error .missingApiUrl) "https://a.example/c" (some [("q", .num 5)]) =
      .ok ⟨"https://a.example/c",
        ((some [("q", JsPrim.num 5)]).getD []).map (fun kv => (kv.1, kv.2.toJsString))⟩ ∧
    buildUrl (.error .missingApiUrl) "https://a.example/c" (some [("q", .num 5)]) =
      buildUrl (.ok ⟨"https://b.example", false⟩) "https://a.example/c" (some [("q", .num 5)]) :=
  (buildUrl_spec (.error .missingApiUrl) (.ok ⟨"https://b.example", false⟩)
    "https://a.example/c" (some [("q", .num 5)])).1 (by decide)

end EmrWeb
